import Mathlib

/-!
Verification development for the argo-renderer repository (Go).

The development shallowly embeds the two core subsystems:
the application-descriptor resolver of internal/pkg/argo/parser.go,
and the pure parts of the concurrent render orchestrator
(URL normalization, cache keys, and an interleaving model of the
clone cache) of internal/app.  Go strings stay Lean strings, Go maps
become association lists with lookup and overwrite-insert helpers,
Go machine integers become Int with explicit 64-bit range checks,
and fallible Go functions return Except.
-/

namespace ArgoRenderer

/-! ### Data model (internal/pkg/argo/parser.go) -/

/-- One name/value pair of a plugin environment, parser.go lines 28-31. -/
structure EnvVar where
  name : String
  value : String
deriving DecidableEq, Repr

/-- The resolved application descriptor, parser.go lines 17-26.
The source file in src lacks the Setters field, but both the unit tests
(parser_test.go) and the orchestrator (internal/app, which reads
app.Setters) require it; it is carried here and filled by the
spec-modelled setter pass below. -/
structure Application where
  name : String
  «instance» : String
  env : String
  repoURL : String
  path : String
  targetRevision : String
  pluginEnv : List EnvVar
  valuesFiles : List String
  setters : List (String × String)
deriving DecidableEq, Repr

/-- Metadata of a raw document, parser.go lines 36-40.  The labels map is
optional because the source distinguishes a nil labels map. -/
structure RawMetadata where
  name : String
  labels : Option (List (String × String))
  annotations : List (String × String)
deriving DecidableEq, Repr

/-- The optional plugin block of spec.source, parser.go lines 46-48. -/
structure RawPlugin where
  env : List EnvVar
deriving DecidableEq, Repr

/-- The source block of a raw document, parser.go lines 42-49. -/
structure RawSource where
  repoURL : String
  targetRevision : String
  path : String
  plugin : Option RawPlugin
deriving DecidableEq, Repr

/-- The spec block of a raw document, parser.go lines 41-50. -/
structure RawSpec where
  source : RawSource
deriving DecidableEq, Repr

/-- A raw YAML-decoded application document, parser.go lines 33-51. -/
structure rawApplication where
  apiVersion : String
  kind : String
  metadata : RawMetadata
  spec : RawSpec
deriving DecidableEq, Repr

deriving instance DecidableEq for Except

/-! ### String primitives over character lists

The Go string functions used by the source are modelled over the
character list of a string, which the kernel can evaluate. -/

/-- Models Go strings.HasPrefix(s, p). -/
def strStarts (s p : String) : Bool := p.data.isPrefixOf s.data

/-- Drops the first n characters of a string. -/
def strDrop (s : String) (n : Nat) : String := String.mk (s.data.drop n)

/-- Models Go strings.ToLower on ASCII input. -/
def strLower (s : String) : String := String.mk (s.data.map Char.toLower)

/-! ### Go map operations, modelled as association lists -/

/-- Lookup in a Go map modelled as an association list (first match). -/
def mapGet : List (String × String) → String → Option String
  | [], _ => none
  | p :: m, k => if p.1 = k then some p.2 else mapGet m k

/-- Overwrite-insert into a Go map modelled as an association list. -/
def mapInsert (m : List (String × String)) (k v : String) : List (String × String) :=
  (k, v) :: m.filter (fun p => p.1 ≠ k)

/-! ### String helpers mirroring the Go standard library calls used -/

/-- Models Go strings.SplitN(s, "=", 2): the part before the first
equals sign and, when an equals sign occurs, the rest of the string. -/
def splitN2 (s : String) : List String :=
  let a := s.data.takeWhile (fun c => c ≠ '=')
  let b := s.data.dropWhile (fun c => c ≠ '=')
  if b.isEmpty then [String.mk a] else [String.mk a, String.mk b.tail]

/-- parser.go lines 179-185: the part after the first equals sign of a
WERF_SET-style value, or the empty string when there is no equals sign. -/
def extractValueFromWerfSet (s : String) : String :=
  match splitN2 s with
  | [_, v] => v
  | _ => ""

/-- Models Go strconv.Atoi: an optional sign followed by one or more
decimal digits, with a 64-bit signed range check; none models a non-nil
error (which the caller treats as a parse failure). -/
def goAtoi (s : String) : Option Int :=
  match s.data with
  | [] => none
  | c :: cs =>
    let signNeg : Bool := c = '-'
    let digits : List Char := if c = '+' ∨ c = '-' then cs else c :: cs
    if digits.isEmpty then none
    else if digits.all Char.isDigit then
      let n : Nat := digits.foldl (fun a d => a * 10 + (d.toNat - 48)) 0
      let v : Int := if signNeg then -(n : Int) else (n : Int)
      if v < -(2 ^ 63) ∨ 2 ^ 63 - 1 < v then none else some v
    else none

/-! ### The plugin environment scan (parser.go lines 105-127) -/

/-- Accumulator of the loop over spec.source.plugin.env,
parser.go lines 96-103. -/
structure PluginScan where
  instanceFromPlugin : String
  envFromPlugin : String
  remainingPluginEnv : List EnvVar
  indexedValues : List (Int × String)
deriving DecidableEq, Repr

/-- The empty accumulator the loop starts from. -/
def initScan : PluginScan :=
  { instanceFromPlugin := "", envFromPlugin := ""
    remainingPluginEnv := [], indexedValues := [] }

/-- One iteration of the switch of parser.go lines 107-124. -/
def scanStep (acc : PluginScan) (v : EnvVar) : PluginScan :=
  if v.name = "WERF_SET_INSTANCE" then
    { acc with instanceFromPlugin := extractValueFromWerfSet v.value
               remainingPluginEnv := acc.remainingPluginEnv ++ [v] }
  else if v.name = "WERF_SET_ENV" then
    { acc with envFromPlugin := extractValueFromWerfSet v.value
               remainingPluginEnv := acc.remainingPluginEnv ++ [v] }
  else if strStarts v.name "WERF_VALUES_" then
    match goAtoi (strDrop v.name "WERF_VALUES_".length) with
    | none => acc
    | some i => { acc with indexedValues := acc.indexedValues ++ [(i, v.value)] }
  else
    { acc with remainingPluginEnv := acc.remainingPluginEnv ++ [v] }

/-- The loop over the plugin environment, parser.go lines 105-126. -/
def scanPluginEnv (envs : List EnvVar) : PluginScan :=
  envs.foldl scanStep initScan

/-- The plugin environment of a raw document; the empty list when the
plugin block is absent (the source skips the loop in that case). -/
def pluginList (raw : rawApplication) : List EnvVar :=
  match raw.spec.source.plugin with
  | none => []
  | some p => p.env

/-- Reading of an optional label, parser.go lines 86-94: the empty string
when the labels map is nil or the key is absent. -/
def labelValue (raw : rawApplication) (k : String) : String :=
  match raw.metadata.labels with
  | none => ""
  | some ls => (mapGet ls k).getD ""

/-! ### Sorting of indexed values files (parser.go lines 129-135)

The source sorts with sort.Slice and the comparison
indexedValues i .index < indexedValues j .index.  Go documents
sort.Slice as not stable: the program guarantees only an ascending
arrangement of the pairs, not the relative order of equal indices.  An
executable model must pick one concrete result, and the insertion sort
of Mathlib is used as that determinization; theorems about the program
therefore assert only the properties every sort.Slice execution
satisfies — the result is sorted by index and is a permutation of the
input — and never the tie order the determinization happens to pick. -/

/-- Key order on indexed values-file pairs. -/
def idxLe (a b : Int × String) : Prop := a.1 ≤ b.1

instance : DecidableRel idxLe := fun a b => inferInstanceAs (Decidable (a.1 ≤ b.1))

instance : IsTotal (Int × String) idxLe := ⟨fun a b => Int.le_total a.1 b.1⟩

instance : IsTrans (Int × String) idxLe := ⟨fun _ _ _ h1 h2 => le_trans h1 h2⟩

/-! ### Resolution errors -/

/-- Failure modes of newApplicationFromRaw, parser.go lines 138, 147, 160. -/
inductive ResolveError where
  | conflict (field labelVal pluginVal : String)
  | emptyRepoSources
deriving DecidableEq, Repr

/-- A single-quote character, written with an escape. -/
def quoteChar : String := "\x27"

/-- The error message the source formats for each failure,
parser.go lines 138, 147 and 160. -/
def renderResolveError : ResolveError → String
  | .conflict f l p =>
    "conflicting values for " ++ quoteChar ++ f ++ quoteChar ++ ": label is " ++
      quoteChar ++ l ++ quoteChar ++ ", plugin.env is " ++ quoteChar ++ p ++ quoteChar
  | .emptyRepoSources =>
    "both " ++ quoteChar ++ "rawRepository" ++ quoteChar ++ " annotation and " ++
      quoteChar ++ "spec.source.repoURL" ++ quoteChar ++ " are empty"

/-! ### The setter pass -/

/-- Modelled from the spec: the setter-extraction pass is absent from
src/internal/pkg/argo/parser.go (the Application struct there has no
Setters field), while parser_test.go and the orchestrator in
internal/app both read Application.Setters.  Spec section 4.1 step 8: a
parallel pass over the plugin environment in which every variable whose
name carries the SET prefix and whose value contains an equals sign
contributes the part before the first equals sign as key and the part
after it as value, later contributions overwriting earlier ones; a
variable without an equals sign contributes nothing.  One step of that
pass. -/
def setterStep (m : List (String × String)) (v : EnvVar) : List (String × String) :=
  if strStarts v.name "WERF_SET_" then
    match splitN2 v.value with
    | [k, val] => mapInsert m k val
    | _ => m
  else m

/-- Modelled from the spec: the whole setter pass over the plugin
environment (see setterStep). -/
def computeSetters (envs : List EnvVar) : List (String × String) :=
  envs.foldl setterStep []

/-! ### Per-field resolution (parser.go lines 137-174) -/

/-- Resolution of one identity field (instance or env) from its label
candidate and its plugin candidate, parser.go lines 137-153: both
non-empty and unequal is a conflict; otherwise the label wins when
non-empty, else the plugin value (possibly empty). -/
def resolveIdentity (field l p : String) : Except ResolveError String :=
  if l ≠ "" ∧ p ≠ "" ∧ l ≠ p then .error (.conflict field l p)
  else .ok (if l ≠ "" then l else p)

/-- Resolution of the repository URL, parser.go lines 155-163: the
rawRepository annotation when present and non-empty, else the spec
field, which must then be non-empty. -/
def resolveRepoURL (raw : rawApplication) : Except ResolveError String :=
  let anno := (mapGet raw.metadata.annotations "rawRepository").getD ""
  if anno = "" then
    if raw.spec.source.repoURL = "" then .error .emptyRepoSources
    else .ok raw.spec.source.repoURL
  else .ok anno

/-- Resolution of the path, parser.go lines 165-174: the rawPath
annotation whenever the key exists (even with an empty value), else the
spec field, else the dot. -/
def resolvePath (raw : rawApplication) : String :=
  match mapGet raw.metadata.annotations "rawPath" with
  | some v => v
  | none => if raw.spec.source.path = "" then "." else raw.spec.source.path

/-- The per-document resolver, parser.go lines 80-177, with the setter
pass added as modelled from the spec (see setterStep). -/
def newApplicationFromRaw (raw : rawApplication) : Except ResolveError Application :=
  let scan := scanPluginEnv (pluginList raw)
  match resolveIdentity "instance" (labelValue raw "instance") scan.instanceFromPlugin with
  | .error e => .error e
  | .ok instVal =>
    match resolveIdentity "env" (labelValue raw "env") scan.envFromPlugin with
    | .error e => .error e
    | .ok envVal =>
      match resolveRepoURL raw with
      | .error e => .error e
      | .ok repo =>
        .ok { name := raw.metadata.name
              «instance» := instVal
              env := envVal
              repoURL := repo
              path := resolvePath raw
              targetRevision := raw.spec.source.targetRevision
              pluginEnv := scan.remainingPluginEnv
              valuesFiles := (List.insertionSort idxLe scan.indexedValues).map (fun p => p.2)
              setters := computeSetters (pluginList raw) }

/-! ### The document stream (parser.go lines 53-78)

YAML decoding itself is external (gopkg.in/yaml.v3); the stream is
modelled as the sequence of decode outcomes: either a decoded raw
document or a document the decoder rejects. -/

/-- One document of the multi-document input stream. -/
inductive YamlDoc where
  | malformed
  | doc (raw : rawApplication)
deriving DecidableEq, Repr

/-- Failure modes of ParseApplications, parser.go lines 64 and 71. -/
inductive ParseError where
  | decodeFailure
  | invalidApplication (name : String) (e : ResolveError)
deriving DecidableEq, Repr

/-- The kind and API-version filter of parser.go line 67. -/
def isApplicationDoc (raw : rawApplication) : Bool :=
  raw.apiVersion = "argoproj.io/v1alpha1" ∧ raw.kind = "Application"

/-- The decode loop of parser.go lines 57-75: a decode failure anywhere
aborts the whole call, non-matching documents are skipped, matching
documents are resolved in order and the first resolution failure aborts
the whole call. -/
def ParseApplications : List YamlDoc → Except ParseError (List Application)
  | [] => .ok []
  | .malformed :: _ => .error .decodeFailure
  | .doc raw :: rest =>
    if isApplicationDoc raw then
      match newApplicationFromRaw raw with
      | .error e => .error (.invalidApplication raw.metadata.name e)
      | .ok app =>
        match ParseApplications rest with
        | .error e => .error e
        | .ok apps => .ok (app :: apps)
    else ParseApplications rest

/-- The raw documents of a stream that pass the kind and API-version
filter, in input order. -/
def matchingDocs (docs : List YamlDoc) : List rawApplication :=
  docs.filterMap (fun d =>
    match d with
    | .malformed => none
    | .doc raw => if isApplicationDoc raw then some raw else none)

/-! ### Override values of one worker (internal/app, processApplication)

The worker starts its override map from the descriptor setters (a nil
map degrades to an empty one) and injects global.instance and
global.env when those fields are non-empty. -/

/-- The override-values map a worker passes to the child render,
built in processApplication before the clone step. -/
def overrideValues (app : Application) : List (String × String) :=
  let m0 := app.setters
  let m1 := if app.«instance» ≠ "" then mapInsert m0 "global.instance" app.«instance» else m0
  if app.env ≠ "" then mapInsert m1 "global.env" app.env else m1

/-! ### Repository URL normalization (internal/app, convertHTTPtoSSH)

The function delegates to Go net/url.Parse.  That library call is
modelled below for the URL shapes this program handles: rejection of
control bytes, scheme extraction, query and fragment stripping,
authority and host extraction with port validation.  Percent-escape
decoding and userinfo character validation are not modelled; no input
used by the theorems below contains a percent escape. -/

/-- The parts of a parsed URL this program reads.  The host includes
the port when one is present, as in Go. -/
structure GoURL where
  scheme : String
  host : String
  path : String
deriving DecidableEq, Repr

/-- Failure modes of the modelled net/url.Parse. -/
inductive URLError where
  | invalidControlCharacter
  | missingProtocolScheme
  | colonInFirstPathSegment
  | missingCloseBracket
  | invalidPort
deriving DecidableEq, Repr

/-- Models the net/url control-byte scan: bytes below 0x20 and the byte
0x7f make a URL unparseable. -/
def containsCTLByte (s : String) : Bool :=
  s.data.any (fun c => c.toNat < 0x20 ∨ c.toNat = 0x7f)

/-- Splits at the first occurrence of a separator, dropping the
separator; the whole string and an empty rest when absent. -/
def stringCut (s : String) (sep : Char) : String × String :=
  let a := s.data.takeWhile (fun c => c ≠ sep)
  let b := s.data.dropWhile (fun c => c ≠ sep)
  if b.isEmpty then (s, "") else (String.mk a, String.mk b.tail)

/-- Splits at the first occurrence of a separator, keeping the
separator at the head of the rest. -/
def splitKeep (s : String) (sep : Char) : String × String :=
  (String.mk (s.data.takeWhile (fun c => c ≠ sep)),
   String.mk (s.data.dropWhile (fun c => c ≠ sep)))

/-- Models the scheme loop of net/url getScheme: letters continue, and
digits, plus, minus and dot continue except at the start; a colon after
at least one valid character yields the scheme; any other outcome
yields no scheme and the whole input as the rest. -/
def getSchemeAux (orig : String) (acc : List Char) : List Char → Except URLError (String × String)
  | [] => .ok ("", orig)
  | c :: cs =>
    if c.isAlpha then getSchemeAux orig (acc ++ [c]) cs
    else if c.isDigit ∨ c = '+' ∨ c = '-' ∨ c = '.' then
      if acc.isEmpty then .ok ("", orig) else getSchemeAux orig (acc ++ [c]) cs
    else if c = ':' then
      if acc.isEmpty then .error .missingProtocolScheme
      else .ok (String.mk acc, String.mk cs)
    else .ok ("", orig)

/-- Scheme extraction over a whole string (see getSchemeAux). -/
def getSchemeGo (s : String) : Except URLError (String × String) :=
  getSchemeAux s [] s.data

/-- The part of an authority after the last at sign; the whole
authority when no at sign occurs (the userinfo split of net/url). -/
def afterLastAt (authority : String) : String :=
  String.mk ((authority.data.reverse.takeWhile (fun c => c ≠ '@')).reverse)

/-- Models net/url validOptionalPort: empty, or a colon followed by
decimal digits only. -/
def validOptionalPort (p : String) : Bool :=
  p = "" ∨ (strStarts p ":" ∧ (strDrop p 1).data.all Char.isDigit)

/-- The suffix of a host from its last colon on, when one occurs
outside the empty case; used for port validation. -/
def colonPortOf (host : String) : String :=
  let revTail := host.data.reverse.takeWhile (fun c => c ≠ ':')
  if revTail.length = host.data.length then ""
  else String.mk (':' :: revTail.reverse)

/-- Models net/url parseHost on an authority: take the part after the
userinfo, require a closing bracket for a bracketed host, and validate
the optional port; the returned host keeps brackets and port as Go
does. -/
def parseAuthorityHost (authority : String) : Except URLError String :=
  let host := afterLastAt authority
  if strStarts host "[" then
    if host.data.contains ']' then
      let afterBracket := String.mk ((host.data.reverse.takeWhile (fun c => c ≠ ']')).reverse)
      if validOptionalPort afterBracket then .ok host else .error .invalidPort
    else .error .missingCloseBracket
  else
    if validOptionalPort (colonPortOf host) then .ok host else .error .invalidPort

/-- Models Go net/url.Parse for the URL shapes this program handles
(see the section comment): fragment split, control-byte check on the
part before the fragment, scheme extraction with lowercasing, query
split, the opaque and rootless cases, and authority parsing. -/
def urlParse (rawURL : String) : Except URLError GoURL :=
  let u := (stringCut rawURL '#').1
  if containsCTLByte u then .error .invalidControlCharacter
  else
    match getSchemeGo u with
    | .error e => .error e
    | .ok (scheme0, rest0) =>
      let scheme := strLower scheme0
      let rest := (stringCut rest0 '?').1
      if ¬ strStarts rest "/" then
        if scheme ≠ "" then .ok { scheme := scheme, host := "", path := "" }
        else if ((stringCut rest '/').1).data.contains ':' then .error .colonInFirstPathSegment
        else .ok { scheme := scheme, host := "", path := rest }
      else if strStarts rest "//" ∧ (scheme ≠ "" ∨ ¬ strStarts rest "///") then
        let after := strDrop rest 2
        let (authority, rest2) := splitKeep after '/'
        match parseAuthorityHost authority with
        | .error e => .error e
        | .ok host => .ok { scheme := scheme, host := host, path := rest2 }
      else .ok { scheme := scheme, host := "", path := rest }

/-- Models Go strings.TrimPrefix(path, "/"). -/
def trimLeadingSlash (s : String) : String :=
  if strStarts s "/" then strDrop s 1 else s

/-- The repository URL normalizer, internal/app lines 205-219: an
address already in SSH form passes through, an http or https URL is
rewritten to the SSH form, any other parsed scheme passes through, and
a parse failure is propagated as an error. -/
def convertHTTPtoSSH (httpURL : String) : Except URLError String :=
  if strStarts httpURL "git@" then .ok httpURL
  else
    match urlParse httpURL with
    | .error e => .error e
    | .ok u =>
      if u.scheme ≠ "https" ∧ u.scheme ≠ "http" then .ok httpURL
      else .ok ("git@" ++ u.host ++ ":" ++ trimLeadingSlash u.path)

/-! ### Cache key and clone request of one worker (internal/app, git) -/

/-- The arguments a worker hands to the version-control collaborator. -/
structure CloneRequest where
  url : String
  revision : String
deriving DecidableEq, Repr

/-- The cache key of one worker, internal/app line 138: the normalized
URL, an at sign, and the target revision. -/
def workerCacheKey (app : Application) : Except URLError String :=
  (convertHTTPtoSSH app.repoURL).map (fun ssh => ssh ++ "@" ++ app.targetRevision)

/-- The clone request of one worker, internal/app line 155: the
normalized URL and the target revision. -/
def workerCloneRequest (app : Application) : Except URLError CloneRequest :=
  (convertHTTPtoSSH app.repoURL).map (fun ssh => { url := ssh, revision := app.targetRevision })

/-- Models go-git plumbing.NewBranchReferenceName, used by git.Clone
(internal/pkg/git/git.go line 17) to turn the revision into the branch
reference to check out. -/
def branchReferenceName (revision : String) : String :=
  "refs/heads/" ++ revision

/-! ### Interleaving model of the clone cache (internal/app lines 140-167)

The source guards three separate critical sections with one mutex: the
cache lookup, the counter increment with path allocation, and the cache
insert; the clone call itself runs outside any lock.  Each critical
section (and the clone call) is one atomic step here, and a schedule
chooses which worker steps next, so every mutex-respecting interleaving
of the source corresponds to a schedule of this model. -/

/-- One worker of the clone-cache model: its cache key, its program
counter over the four steps (lookup, allocate, clone, insert; 4 is
done), and its local repoPath variable. -/
structure CloneWorker where
  key : String
  pc : Nat
  repoPath : String
deriving DecidableEq, Repr

/-- The shared state of the run: the worker pool, the clonedRepos map,
the clone counter, and the log of clone invocations by key. -/
structure CloneSystem where
  workers : List CloneWorker
  cache : List (String × String)
  counter : Nat
  cloneLog : List String
deriving DecidableEq, Repr

/-- One atomic step of worker i: the mutex-guarded lookup (a hit jumps
past the clone), the mutex-guarded counter increment and path
allocation, the unguarded clone call (logged), or the mutex-guarded
insert. -/
def stepClone (sys : CloneSystem) (i : Nat) : CloneSystem :=
  match sys.workers.get? i with
  | none => sys
  | some w =>
    match w.pc with
    | 0 =>
      match mapGet sys.cache w.key with
      | some p => { sys with workers := sys.workers.set i { w with pc := 4, repoPath := p } }
      | none => { sys with workers := sys.workers.set i { w with pc := 1 } }
    | 1 =>
      let c := sys.counter + 1
      { sys with counter := c
                 workers := sys.workers.set i
                   { w with pc := 2, repoPath := "clone-" ++ toString c } }
    | 2 =>
      { sys with cloneLog := sys.cloneLog ++ [w.key]
                 workers := sys.workers.set i { w with pc := 3 } }
    | 3 =>
      { sys with cache := mapInsert sys.cache w.key w.repoPath
                 workers := sys.workers.set i { w with pc := 4 } }
    | _ => sys

/-- Runs a schedule, a list of worker indices stepped in order. -/
def runCloneSched (sys : CloneSystem) (sched : List Nat) : CloneSystem :=
  sched.foldl stepClone sys

/-! ### Specification-side characterizations

The definitions of this section follow the words of the specification
and the claims; the theorems below compare them with the embedded code
above. -/

/-- Claim C8 wording for the repository URL: the rawRepository
annotation when present and non-empty, otherwise the spec field. -/
def specRepoExpected (raw : rawApplication) : String :=
  match mapGet raw.metadata.annotations "rawRepository" with
  | some v => if v ≠ "" then v else raw.spec.source.repoURL
  | none => raw.spec.source.repoURL

/-- Claim C8 wording for the path: the rawPath annotation whenever the
key exists (even empty), otherwise the spec field, otherwise a dot. -/
def specPathExpected (raw : rawApplication) : String :=
  match mapGet raw.metadata.annotations "rawPath" with
  | some v => v
  | none => if raw.spec.source.path ≠ "" then raw.spec.source.path else "."

/-- The indexed values-file reading of one plugin variable under Go
Atoi semantics: the name must carry the WERF_VALUES_ prefix and the
suffix must parse as an optionally signed 64-bit integer. -/
def valuesIdxEntry (v : EnvVar) : Option (Int × String) :=
  if strStarts v.name "WERF_VALUES_" then
    (goAtoi (strDrop v.name "WERF_VALUES_".length)).map (fun i => (i, v.value))
  else none

/-- The indexed values-file pairs of a document, in input order. -/
def specIndexedValues (raw : rawApplication) : List (Int × String) :=
  (pluginList raw).filterMap valuesIdxEntry

/-- Claim C5 wording of the index parse: the suffix must be a
non-negative integer, written as bare decimal digits. -/
def claimNonNegIndex (s : String) : Option Int :=
  if s ≠ "" ∧ s.data.all Char.isDigit then
    some ((s.data.foldl (fun a d => a * 10 + (d.toNat - 48)) 0 : Nat) : Int)
  else none

/-- The indexed values-file reading claim C5 describes, with the
non-negative index parse. -/
def claimC5Entry (v : EnvVar) : Option (Int × String) :=
  if strStarts v.name "WERF_VALUES_" then
    (claimNonNegIndex (strDrop v.name "WERF_VALUES_".length)).map (fun i => (i, v.value))
  else none

/-- The values-file list claim C5 predicts for a document. -/
def claimC5Files (raw : rawApplication) : List String :=
  (List.insertionSort idxLe ((pluginList raw).filterMap claimC5Entry)).map (fun p => p.2)

/-- Claim C1 wording of one setter contribution: a variable whose name
carries the SET prefix and whose value contains an equals sign
contributes the substring before the first equals sign as key and the
substring after it as value; any other variable contributes nothing. -/
def setterEntry (v : EnvVar) : Option (String × String) :=
  if strStarts v.name "WERF_SET_" ∧ v.value.data.contains '=' then
    some (String.mk (v.value.data.takeWhile (fun c => c ≠ '=')),
          String.mk ((v.value.data.dropWhile (fun c => c ≠ '=')).tail))
  else none

/-- The value the setters map should associate with a key: the value
contributed by the last eligible variable with that key (map writes
overwrite earlier ones), none when no eligible variable has the key. -/
def lastSetterValue (envs : List EnvVar) (k : String) : Option String :=
  (((envs.filterMap setterEntry).reverse).find? (fun p => p.1 == k)).map (fun p => p.2)

/-! ### Concrete documents used by witnesses and counterexamples

These mirror the fixtures of parser_test.go. -/

/-- The default annotations of the test fixtures. -/
def annosDefault : List (String × String) := [("rawRepository", "https://default.repo")]

/-- A document whose metadata name is empty but whose repository
annotation is set. -/
def rawEmptyName : rawApplication :=
  { apiVersion := "argoproj.io/v1alpha1", kind := "Application"
    metadata := { name := "", labels := none, annotations := annosDefault }
    spec := { source := { repoURL := "", targetRevision := "main", path := "", plugin := none } } }

/-- The fixture of the unit test named instance and env from plugin.env
only: both identity directives arrive through the plugin environment. -/
def rawSetDirectives : rawApplication :=
  { apiVersion := "argoproj.io/v1alpha1", kind := "Application"
    metadata := { name := "test-app", labels := none, annotations := annosDefault }
    spec := { source := { repoURL := "", targetRevision := "main", path := ""
                          plugin := some { env :=
                            [ { name := "WERF_SET_INSTANCE", value := "global.instance=from-plugin" }
                            , { name := "WERF_SET_ENV", value := "global.env=dev-plugin" } ] } } } }

/-- A document with a negatively indexed values-file variable. -/
def rawNegIndex : rawApplication :=
  { apiVersion := "argoproj.io/v1alpha1", kind := "Application"
    metadata := { name := "test-app", labels := none, annotations := annosDefault }
    spec := { source := { repoURL := "", targetRevision := "main", path := ""
                          plugin := some { env :=
                            [ { name := "WERF_VALUES_-1", value := "neg.yaml" } ] } } } }

/-- The fixture of the unit test named extracts and sorts values files
correctly: indices 2, 0, 1, one unrelated variable, one unparseable
index. -/
def rawValuesMix : rawApplication :=
  { apiVersion := "argoproj.io/v1alpha1", kind := "Application"
    metadata := { name := "test-app", labels := none, annotations := annosDefault }
    spec := { source := { repoURL := "", targetRevision := "main", path := ""
                          plugin := some { env :=
                            [ { name := "WERF_VALUES_2", value := "values/prod.yaml" }
                            , { name := "WERF_VALUES_0", value := "values/common.yaml" }
                            , { name := "SOME_OTHER_VAR", value := "ignore-me" }
                            , { name := "WERF_VALUES_1", value := "values/overlay.yaml" }
                            , { name := "WERF_VALUES_INVALID", value := "ignore-me-too" } ] } } } }

/-- The descriptor rawValuesMix resolves to. -/
def appValuesMix : Application :=
  { name := "test-app", «instance» := "", env := "", repoURL := "https://default.repo"
    path := ".", targetRevision := "main"
    pluginEnv := [ { name := "SOME_OTHER_VAR", value := "ignore-me" } ]
    valuesFiles := ["values/common.yaml", "values/overlay.yaml", "values/prod.yaml"]
    setters := [] }

/-- A fixture with identity labels and one setter directive, after the
end-to-end scenario of the spec. -/
def rawSetters : rawApplication :=
  { apiVersion := "argoproj.io/v1alpha1", kind := "Application"
    metadata := { name := "test-app"
                  labels := some [("instance", "inf1"), ("env", "dev")]
                  annotations := annosDefault }
    spec := { source := { repoURL := "", targetRevision := "main", path := ""
                          plugin := some { env :=
                            [ { name := "WERF_SET_REPLICA_COUNT", value := "global.replicaCount=3" }
                            , { name := "WERF_SET_INVALID", value := "no-equals-sign" } ] } } } }

/-- The descriptor rawSetters resolves to. -/
def appSetters : Application :=
  { name := "test-app", «instance» := "inf1", env := "dev", repoURL := "https://default.repo"
    path := ".", targetRevision := "main"
    pluginEnv := [ { name := "WERF_SET_REPLICA_COUNT", value := "global.replicaCount=3" }
                 , { name := "WERF_SET_INVALID", value := "no-equals-sign" } ]
    valuesFiles := []
    setters := [("global.replicaCount", "3")] }

/-- The fixture of the unit test named conflict when both instance
sources differ. -/
def rawConflict : rawApplication :=
  { apiVersion := "argoproj.io/v1alpha1", kind := "Application"
    metadata := { name := "test-app"
                  labels := some [("instance", "from-label")]
                  annotations := annosDefault }
    spec := { source := { repoURL := "", targetRevision := "main", path := ""
                          plugin := some { env :=
                            [ { name := "WERF_SET_INSTANCE", value := "global.instance=from-plugin" } ] } } } }

/-- A document with every repository source empty. -/
def rawEmptyRepo : rawApplication :=
  { apiVersion := "argoproj.io/v1alpha1", kind := "Application"
    metadata := { name := "test-app", labels := none, annotations := [] }
    spec := { source := { repoURL := "", targetRevision := "main", path := "", plugin := none } } }

/-- A document whose target revision is empty while the repository
annotation is already in SSH form. -/
def rawNoRev : rawApplication :=
  { apiVersion := "argoproj.io/v1alpha1", kind := "Application"
    metadata := { name := "svc", labels := none
                  annotations := [("rawRepository", "git@example.com:org/repo")] }
    spec := { source := { repoURL := "", targetRevision := "", path := "", plugin := none } } }

/-- The descriptor rawNoRev resolves to. -/
def appNoRev : Application :=
  { name := "svc", «instance» := "", env := "", repoURL := "git@example.com:org/repo"
    path := ".", targetRevision := "", pluginEnv := [], valuesFiles := [], setters := [] }

/-- A non-application resource, as in the unit test named should ignore
non-application resources. -/
def rawOther : rawApplication :=
  { apiVersion := "v1", kind := "ConfigMap"
    metadata := { name := "my-config", labels := none, annotations := [] }
    spec := { source := { repoURL := "", targetRevision := "", path := "", plugin := none } } }

/-- A stream with one non-matching and one matching document. -/
def docsMixed : List YamlDoc := [.doc rawOther, .doc rawSetters]

/-- A stream whose second document the decoder rejects. -/
def docsBad : List YamlDoc := [.doc rawOther, .malformed]

/-- An input that net/url rejects: the path carries a control byte. -/
def ctlURL : String := "https://git.example.com/org\nrepo"

/-- The https form of the repository of the end-to-end scenario. -/
def httpsURL : String := "https://git.example.com/org/repo"

/-- The shared cache key of the clone-race scenario. -/
def cloneKeySample : String := "git@example.com:org/repo@main"

/-- Two workers that carry the same cache key, before any step. -/
def twoWorkerStart : CloneSystem :=
  { workers := [ { key := cloneKeySample, pc := 0, repoPath := "" }
               , { key := cloneKeySample, pc := 0, repoPath := "" } ]
    cache := [], counter := 0, cloneLog := [] }

/-- A schedule in which both workers pass the cache lookup before
either one has inserted its clone: both observe a miss. -/
def raceSchedule : List Nat := [0, 1, 0, 0, 0, 1, 1, 1]

/-! ## Theorems

Helper lemmas first, then one theorem per claim with its witness or
counterexample. -/

/-! ### Association list lemmas -/

theorem mapGet_filter_ne (m : List (String × String)) (k k' : String) (h : k' ≠ k) :
    mapGet (m.filter (fun p => p.1 ≠ k)) k' = mapGet m k' := by
  induction m with
  | nil => rfl
  | cons p m ih =>
    by_cases hp : p.1 = k
    · have hd : (decide (p.1 ≠ k)) = false := by simp [hp]
      rw [List.filter_cons, hd]
      simp only [Bool.false_eq_true, if_false]
      rw [mapGet, if_neg (by rw [hp]; exact fun hh => h hh.symm)]
      exact ih
    · have hd : (decide (p.1 ≠ k)) = true := by simp [hp]
      rw [List.filter_cons, hd]
      simp only [if_true]
      rw [mapGet, mapGet]
      by_cases hk : p.1 = k'
      · rw [if_pos hk, if_pos hk]
      · rw [if_neg hk, if_neg hk]
        exact ih

theorem mapGet_mapInsert (m : List (String × String)) (k v k' : String) :
    mapGet (mapInsert m k v) k' = if k' = k then some v else mapGet m k' := by
  unfold mapInsert
  rw [mapGet]
  by_cases h : k' = k
  · rw [if_pos h.symm, if_pos h]
  · rw [if_neg (fun hh => h hh.symm), if_neg h]
    exact mapGet_filter_ne m k k' h

/-! ### splitN2 against the contains-an-equals-sign reading -/

theorem not_contains_forall {l : List Char} (h : l.contains '=' = false) :
    ∀ x ∈ l, x ≠ '=' := by
  intro x hx heq
  have hc : l.contains '=' = true := by
    rw [List.contains_iff_exists_mem_beq]
    exact ⟨x, hx, by simp [heq]⟩
  rw [hc] at h
  cases h

theorem splitN2_of_not_contains (s : String) (h : s.data.contains '=' = false) :
    splitN2 s = [String.mk (s.data.takeWhile (fun c => c ≠ '='))] := by
  have hnil : s.data.dropWhile (fun c => c ≠ '=') = [] := by
    rw [List.dropWhile_eq_nil_iff]
    intro x hx
    simpa using not_contains_forall h x hx
  simp only [splitN2, hnil]
  rfl

theorem splitN2_of_contains (s : String) (h : s.data.contains '=' = true) :
    splitN2 s = [String.mk (s.data.takeWhile (fun c => c ≠ '=')),
                 String.mk ((s.data.dropWhile (fun c => c ≠ '=')).tail)] := by
  have hne : ¬ s.data.dropWhile (fun c => c ≠ '=') = [] := by
    intro hnil
    rw [List.dropWhile_eq_nil_iff] at hnil
    rcases List.contains_iff_exists_mem_beq.mp h with ⟨x, hx, hbeq⟩
    have hxeq : x = '=' := (show ('=' : Char) = x by simpa using hbeq).symm
    have := hnil x hx
    rw [hxeq] at this
    simp at this
  simp only [splitN2]
  rw [if_neg (by simpa [List.isEmpty_iff] using hne)]

/-! ### The setter pass against the claim reading -/

theorem setterStep_of_entry_none (m : List (String × String)) (v : EnvVar)
    (h : setterEntry v = none) : setterStep m v = m := by
  unfold setterEntry at h
  unfold setterStep
  by_cases hpre : strStarts v.name "WERF_SET_" = true
  · by_cases hc : v.value.data.contains '=' = true
    · rw [if_pos ⟨hpre, hc⟩] at h
      cases h
    · have hcf : v.value.data.contains '=' = false := by simpa using hc
      rw [splitN2_of_not_contains v.value hcf]
      simp [hpre]
  · have hpf : strStarts v.name "WERF_SET_" = false := by simpa using hpre
    simp [hpf]

theorem setterStep_of_entry_some (m : List (String × String)) (v : EnvVar) (k0 v0 : String)
    (h : setterEntry v = some (k0, v0)) : setterStep m v = mapInsert m k0 v0 := by
  unfold setterEntry at h
  by_cases hpre : strStarts v.name "WERF_SET_" = true
  · by_cases hc : v.value.data.contains '=' = true
    · rw [if_pos ⟨hpre, hc⟩] at h
      have hk := (Option.some.injEq _ _).mp h
      unfold setterStep
      rw [splitN2_of_contains v.value hc]
      simp only [hpre, if_true]
      rw [(Prod.mk.injEq _ _ _ _).mp hk |>.1, (Prod.mk.injEq _ _ _ _).mp hk |>.2]
    · rw [if_neg (fun hh => hc hh.2)] at h
      cases h
  · rw [if_neg (fun hh => hpre hh.1)] at h
    cases h

theorem mapGet_foldl_setterStep :
    ∀ (envs : List EnvVar) (m : List (String × String)) (k : String),
    mapGet (List.foldl setterStep m envs) k
      = match lastSetterValue envs k with
        | some v => some v
        | none => mapGet m k
  | [], m, k => by simp [lastSetterValue]
  | v :: envs, m, k => by
    rw [List.foldl_cons, mapGet_foldl_setterStep envs]
    cases he : setterEntry v with
    | none =>
      rw [setterStep_of_entry_none m v he]
      have hsame : lastSetterValue (v :: envs) k = lastSetterValue envs k := by
        unfold lastSetterValue
        rw [List.filterMap_cons, he]
      rw [hsame]
    | some e =>
      rw [setterStep_of_entry_some m v e.1 e.2 (by simpa using he)]
      have hexp : lastSetterValue (v :: envs) k
          = match lastSetterValue envs k with
            | some x => some x
            | none => if e.1 == k then some e.2 else none := by
        unfold lastSetterValue
        rw [List.filterMap_cons, he, List.reverse_cons, List.find?_append]
        cases hf : (List.filterMap setterEntry envs).reverse.find? (fun p => p.1 == k) with
        | none =>
          simp only [hf, Option.none_or, Option.map_eq_map]
          by_cases hk : (e.1 == k) = true
          · simp [List.find?, hk]
          · simp [List.find?, hk]
        | some q =>
          simp [hf]
      rw [hexp]
      cases hl : lastSetterValue envs k with
      | some x => simp
      | none =>
        simp only []
        rw [mapGet_mapInsert]
        by_cases hk : k = e.1
        · rw [if_pos hk, if_pos (by simp [hk])]
        · rw [if_neg hk, if_neg (by simp; exact fun hh => hk hh.symm)]

/-! ### The plugin scan against the filterMap reading -/

theorem foldl_scanStep_indexed :
    ∀ (envs : List EnvVar) (acc : PluginScan),
    (List.foldl scanStep acc envs).indexedValues
      = acc.indexedValues ++ envs.filterMap valuesIdxEntry
  | [], acc => by simp
  | v :: envs, acc => by
    rw [List.foldl_cons, foldl_scanStep_indexed envs, List.filterMap_cons]
    by_cases h1 : v.name = "WERF_SET_INSTANCE"
    · have hv : valuesIdxEntry v = none := by
        unfold valuesIdxEntry
        rw [h1]
        rfl
      simp [scanStep, h1, hv]
    · by_cases h2 : v.name = "WERF_SET_ENV"
      · have hv : valuesIdxEntry v = none := by
          unfold valuesIdxEntry
          rw [h2]
          rfl
        simp [scanStep, h1, h2, hv]
      · by_cases h3 : strStarts v.name "WERF_VALUES_" = true
        · cases hA : goAtoi (strDrop v.name "WERF_VALUES_".length) with
          | none => simp [scanStep, valuesIdxEntry, h1, h2, h3, hA]
          | some i => simp [scanStep, valuesIdxEntry, h1, h2, h3, hA]
        · have h3f : strStarts v.name "WERF_VALUES_" = false := by simpa using h3
          simp [scanStep, valuesIdxEntry, h1, h2, h3f]

theorem scanPluginEnv_indexed (envs : List EnvVar) :
    (scanPluginEnv envs).indexedValues = envs.filterMap valuesIdxEntry := by
  unfold scanPluginEnv
  rw [foldl_scanStep_indexed]
  rfl

/-! ### The per-field resolvers -/

theorem resolveIdentity_conflict_iff (f l p : String) :
    resolveIdentity f l p = .error (.conflict f l p) ↔ (l ≠ "" ∧ p ≠ "" ∧ l ≠ p) := by
  unfold resolveIdentity
  by_cases h : l ≠ "" ∧ p ≠ "" ∧ l ≠ p
  · rw [if_pos h]
    simp [h]
  · rw [if_neg h]
    simp [h]

theorem resolveIdentity_error_elim (f l p : String) (e : ResolveError)
    (h : resolveIdentity f l p = .error e) :
    e = .conflict f l p ∧ l ≠ "" ∧ p ≠ "" ∧ l ≠ p := by
  unfold resolveIdentity at h
  by_cases hc : l ≠ "" ∧ p ≠ "" ∧ l ≠ p
  · rw [if_pos hc] at h
    exact ⟨((Except.error.injEq _ _).mp h).symm, hc⟩
  · rw [if_neg hc] at h
    cases h

theorem resolveIdentity_ok_cases (f l p : String) (h : l = "" ∨ p = "" ∨ l = p) :
    resolveIdentity f l p = .ok (if l ≠ "" then l else p) := by
  unfold resolveIdentity
  rw [if_neg]
  rcases h with h | h | h
  · exact fun hc => hc.1 h
  · exact fun hc => hc.2.1 h
  · exact fun hc => hc.2.2 h

theorem renderResolveError_conflict_names (f l p : String) :
    ∃ x y z, renderResolveError (.conflict f l p) = x ++ l ++ y ++ p ++ z := by
  refine ⟨"conflicting values for " ++ quoteChar ++ f ++ quoteChar ++ ": label is " ++ quoteChar,
          quoteChar ++ ", plugin.env is " ++ quoteChar, quoteChar, ?_⟩
  simp only [renderResolveError, String.append_assoc]

theorem specRepoExpected_eq_getD (raw : rawApplication) :
    specRepoExpected raw =
      (if (mapGet raw.metadata.annotations "rawRepository").getD "" = ""
       then raw.spec.source.repoURL
       else (mapGet raw.metadata.annotations "rawRepository").getD "") := by
  unfold specRepoExpected
  cases hm : mapGet raw.metadata.annotations "rawRepository" with
  | none => simp
  | some v =>
    simp only [Option.getD_some]
    by_cases hv : v = ""
    · simp [hv]
    · simp [hv]

theorem resolveRepoURL_ok_elim (raw : rawApplication) (r : String)
    (h : resolveRepoURL raw = .ok r) : r = specRepoExpected raw ∧ r ≠ "" := by
  simp only [resolveRepoURL] at h
  rw [specRepoExpected_eq_getD]
  by_cases ha : (mapGet raw.metadata.annotations "rawRepository").getD "" = ""
  · rw [if_pos ha] at h
    rw [if_pos ha]
    by_cases hs : raw.spec.source.repoURL = ""
    · rw [if_pos hs] at h
      cases h
    · rw [if_neg hs] at h
      have heq := (Except.ok.injEq _ _).mp h
      exact ⟨heq.symm, fun hr => hs (by rw [heq, hr])⟩
  · rw [if_neg ha] at h
    rw [if_neg ha]
    have heq := (Except.ok.injEq _ _).mp h
    exact ⟨heq.symm, fun hr => ha (by rw [heq, hr])⟩

theorem resolveRepoURL_error_of_bothEmpty (raw : rawApplication)
    (h1 : (mapGet raw.metadata.annotations "rawRepository").getD "" = "")
    (h2 : raw.spec.source.repoURL = "") :
    resolveRepoURL raw = .error .emptyRepoSources := by
  simp only [resolveRepoURL]
  rw [if_pos h1, if_pos h2]

theorem specRepoExpected_empty_sources (raw : rawApplication)
    (h : specRepoExpected raw = "") :
    (mapGet raw.metadata.annotations "rawRepository").getD "" = ""
      ∧ raw.spec.source.repoURL = "" := by
  rw [specRepoExpected_eq_getD] at h
  by_cases ha : (mapGet raw.metadata.annotations "rawRepository").getD "" = ""
  · rw [if_pos ha] at h
    exact ⟨ha, h⟩
  · rw [if_neg ha] at h
    exact absurd h ha

theorem resolvePath_eq_spec (raw : rawApplication) :
    resolvePath raw = specPathExpected raw := by
  unfold resolvePath specPathExpected
  cases hm : mapGet raw.metadata.annotations "rawPath" with
  | none =>
    by_cases hs : raw.spec.source.path = ""
    · rw [if_pos hs, if_neg (by simpa using hs)]
    · rw [if_neg hs, if_pos (by simpa using hs)]
  | some v => rfl

/-! ### Inversion of a successful resolution -/

theorem newApp_ok_elim (raw : rawApplication) (app : Application)
    (h : newApplicationFromRaw raw = .ok app) :
    ∃ iv ev repo,
      resolveIdentity "instance" (labelValue raw "instance")
          (scanPluginEnv (pluginList raw)).instanceFromPlugin = .ok iv
      ∧ resolveIdentity "env" (labelValue raw "env")
          (scanPluginEnv (pluginList raw)).envFromPlugin = .ok ev
      ∧ resolveRepoURL raw = .ok repo
      ∧ app = { name := raw.metadata.name, «instance» := iv, env := ev, repoURL := repo
                path := resolvePath raw
                targetRevision := raw.spec.source.targetRevision
                pluginEnv := (scanPluginEnv (pluginList raw)).remainingPluginEnv
                valuesFiles := (List.insertionSort idxLe
                    (scanPluginEnv (pluginList raw)).indexedValues).map (fun p => p.2)
                setters := computeSetters (pluginList raw) } := by
  simp only [newApplicationFromRaw] at h
  cases hI : resolveIdentity "instance" (labelValue raw "instance")
      (scanPluginEnv (pluginList raw)).instanceFromPlugin with
  | error e =>
    rw [hI] at h
    exact Except.noConfusion h
  | ok iv =>
    rw [hI] at h
    cases hE : resolveIdentity "env" (labelValue raw "env")
        (scanPluginEnv (pluginList raw)).envFromPlugin with
    | error e =>
      rw [hE] at h
      exact Except.noConfusion h
    | ok ev =>
      rw [hE] at h
      cases hR : resolveRepoURL raw with
      | error e =>
        rw [hR] at h
        exact Except.noConfusion h
      | ok repo =>
        rw [hR] at h
        exact ⟨iv, ev, repo, rfl, rfl, rfl, ((Except.ok.injEq _ _).mp h).symm⟩

/-! ### Claim C1 -/

/-- Claim C1: for every successfully resolved application document the
setters map associates with each key exactly the value contributed by
the last SET-prefixed plugin variable whose value contains an equals
sign and whose part before the first equals sign is that key (variables
without an equals sign contribute nothing), and that map is the
starting point of the override values passed to the child render: the
worker override map agrees with it on every key other than the two
injected identity keys. -/
theorem setters_map_extraction (raw : rawApplication) (app : Application)
    (h : newApplicationFromRaw raw = .ok app) :
    (∀ k, mapGet app.setters k = lastSetterValue (pluginList raw) k)
    ∧ (∀ k, k ≠ "global.instance" → k ≠ "global.env" →
        mapGet (overrideValues app) k = mapGet app.setters k) := by
  obtain ⟨iv, ev, repo, hI, hE, hR, happ⟩ := newApp_ok_elim raw app h
  constructor
  · intro k
    rw [happ]
    show mapGet (computeSetters (pluginList raw)) k = _
    unfold computeSetters
    rw [mapGet_foldl_setterStep]
    cases lastSetterValue (pluginList raw) k with
    | none => rfl
    | some v => rfl
  · intro k hk1 hk2
    simp only [overrideValues]
    by_cases he2 : app.env ≠ ""
    · rw [if_pos he2, mapGet_mapInsert, if_neg hk2]
      by_cases hi : app.«instance» ≠ ""
      · rw [if_pos hi, mapGet_mapInsert, if_neg hk1]
      · rw [if_neg hi]
    · rw [if_neg he2]
      by_cases hi : app.«instance» ≠ ""
      · rw [if_pos hi, mapGet_mapInsert, if_neg hk1]
      · rw [if_neg hi]

/-- Witness for claim C1 at the end-to-end fixture: the replica-count
setter of rawSetters is looked up through the resolved descriptor. -/
theorem setters_map_extraction_witness :
    mapGet appSetters.setters "global.replicaCount"
      = lastSetterValue (pluginList rawSetters) "global.replicaCount" :=
  (setters_map_extraction rawSetters appSetters (by decide)).1 "global.replicaCount"

/-! ### Claim C2 -/

/-- Claim C2 (code evaluated at the failing input): the source appends
the WERF_SET_INSTANCE and WERF_SET_ENV directives to the residual
plugin environment even though it consumed them (the extracted instance
and env prove the consumption), contradicting the claim and the unit
test fixture named instance and env from plugin.env only, which expects
an empty residual environment for this document. -/
theorem werf_set_directives_kept_in_pluginEnv :
    (newApplicationFromRaw rawSetDirectives).map Application.pluginEnv
      = .ok [ { name := "WERF_SET_INSTANCE", value := "global.instance=from-plugin" }
            , { name := "WERF_SET_ENV", value := "global.env=dev-plugin" } ]
    ∧ (newApplicationFromRaw rawSetDirectives).map Application.«instance» = .ok "from-plugin"
    ∧ (newApplicationFromRaw rawSetDirectives).map Application.env = .ok "dev-plugin" := by
  decide

/-! ### Claim C3 -/

/-- Counterexample to claim C3: a document whose metadata name is empty
still resolves successfully (with an empty name), so resolution does
not fail on every document whose name would be empty. -/
theorem empty_name_resolves_ok :
    rawEmptyName.metadata.name = ""
    ∧ (newApplicationFromRaw rawEmptyName).map Application.name = .ok "" := by
  decide

/-- Claim C3 as amended: on success the repoURL of the descriptor is
non-empty, and resolution fails on any document whose repository URL
would resolve to the empty string; the name is not validated. -/
theorem repoURL_nonempty_on_success (raw : rawApplication) :
    (∀ app, newApplicationFromRaw raw = .ok app → app.repoURL ≠ "")
    ∧ (specRepoExpected raw = "" → ∀ app, newApplicationFromRaw raw ≠ .ok app) := by
  constructor
  · intro app h
    obtain ⟨iv, ev, repo, hI, hE, hR, happ⟩ := newApp_ok_elim raw app h
    have hr := resolveRepoURL_ok_elim raw repo hR
    rw [happ]
    exact hr.2
  · intro hemp app h
    obtain ⟨iv, ev, repo, hI, hE, hR, happ⟩ := newApp_ok_elim raw app h
    obtain ⟨h1, h2⟩ := specRepoExpected_empty_sources raw hemp
    rw [resolveRepoURL_error_of_bothEmpty raw h1 h2] at hR
    exact Except.noConfusion hR

/-- Witness for the amended claim C3 at concrete documents. -/
theorem repoURL_nonempty_on_success_witness :
    appSetters.repoURL ≠ ""
    ∧ newApplicationFromRaw rawEmptyRepo ≠ .ok appSetters :=
  ⟨(repoURL_nonempty_on_success rawSetters).1 appSetters (by decide),
   (repoURL_nonempty_on_success rawEmptyRepo).2 (by decide) appSetters⟩

/-! ### Claim C4 -/

/-- Claim C4 (code evaluated at the failing schedule): two workers
carrying the same cache key, interleaved so that both execute the
mutex-guarded cache lookup before either has inserted, both invoke the
clone: the clone log holds the key twice, so the clone is not invoked
at most once per distinct key under concurrency. -/
theorem clone_cache_race_double_clone :
    twoWorkerStart.workers.map CloneWorker.key = [cloneKeySample, cloneKeySample]
    ∧ (runCloneSched twoWorkerStart raceSchedule).cloneLog = [cloneKeySample, cloneKeySample]
    ∧ ¬ (runCloneSched twoWorkerStart raceSchedule).cloneLog.count cloneKeySample ≤ 1 := by
  decide

/-! ### Claim C5 -/

/-- Counterexample to claim C5: the variable WERF_VALUES_-1 carries a
suffix that does not parse as a non-negative integer, so the claim
predicts it is discarded, yet the code (Go Atoi accepts a sign) keeps
it and emits its path. -/
theorem negative_index_not_discarded :
    (newApplicationFromRaw rawNegIndex).map Application.valuesFiles = .ok ["neg.yaml"]
    ∧ claimC5Files rawNegIndex = [] := by
  decide

/-- Claim C5 as amended: valuesFiles consists of exactly the values of
the plugin variables whose name has the indexed-values prefix and whose
suffix parses under Go Atoi semantics (an optional sign before the
digits is accepted, so negative indices are kept; a failing suffix is
discarded without error), arranged in ascending index order: the output
is the projection of some arrangement of exactly those pairs that is
sorted by index.  The code sorts with sort.Slice, which Go documents as
not stable, so the relative order of equal indices is not guaranteed
and no tie-order property is asserted. -/
theorem values_files_sorted_by_atoi_index (raw : rawApplication) (app : Application)
    (h : newApplicationFromRaw raw = .ok app) :
    ∃ arranged : List (Int × String),
      app.valuesFiles = arranged.map (fun p => p.2)
      ∧ List.Sorted idxLe arranged
      ∧ List.Perm arranged (specIndexedValues raw) := by
  obtain ⟨iv, ev, repo, hI, hE, hR, happ⟩ := newApp_ok_elim raw app h
  refine ⟨List.insertionSort idxLe (specIndexedValues raw), ?_,
          List.sorted_insertionSort idxLe _,
          List.perm_insertionSort idxLe _⟩
  rw [happ]
  show (List.insertionSort idxLe (scanPluginEnv (pluginList raw)).indexedValues).map (fun p => p.2)
      = _
  rw [scanPluginEnv_indexed]
  rfl

/-- Witness for the amended claim C5 at the fixture with indices
2, 0, 1 and one unparseable suffix. -/
theorem values_files_sorted_by_atoi_index_witness :
    ∃ arranged : List (Int × String),
      appValuesMix.valuesFiles = arranged.map (fun p => p.2)
      ∧ List.Sorted idxLe arranged
      ∧ List.Perm arranged (specIndexedValues rawValuesMix) :=
  values_files_sorted_by_atoi_index rawValuesMix appValuesMix (by decide)

/-! ### Claim C6 -/

/-- Claim C6: resolving an identity field fails with a conflict error
exactly when the label candidate and the plugin candidate are both
present (non-empty) and unequal; the conflict error names both
candidate values; in every other case resolution succeeds with the
label value when present, else the plugin value, else the empty string;
and a successfully resolved document carries exactly those per-field
resolution results for instance and env. -/
theorem identity_conflict_resolution :
    (∀ f l p, resolveIdentity f l p = .error (.conflict f l p) ↔ (l ≠ "" ∧ p ≠ "" ∧ l ≠ p))
    ∧ (∀ f l p, l = "" ∨ p = "" ∨ l = p →
        resolveIdentity f l p = .ok (if l ≠ "" then l else p))
    ∧ (∀ f l p e, resolveIdentity f l p = .error e →
        ∃ x y z, renderResolveError e = x ++ l ++ y ++ p ++ z)
    ∧ (∀ raw app, newApplicationFromRaw raw = .ok app →
        resolveIdentity "instance" (labelValue raw "instance")
            (scanPluginEnv (pluginList raw)).instanceFromPlugin = .ok app.«instance»
        ∧ resolveIdentity "env" (labelValue raw "env")
            (scanPluginEnv (pluginList raw)).envFromPlugin = .ok app.env) := by
  refine ⟨resolveIdentity_conflict_iff, resolveIdentity_ok_cases, ?_, ?_⟩
  · intro f l p e he
    obtain ⟨heq, _⟩ := resolveIdentity_error_elim f l p e he
    rw [heq]
    exact renderResolveError_conflict_names f l p
  · intro raw app h
    obtain ⟨iv, ev, repo, hI, hE, hR, happ⟩ := newApp_ok_elim raw app h
    rw [happ]
    exact ⟨hI, hE⟩

/-- Witness for claim C6 at the conflicting fixture values. -/
theorem identity_conflict_resolution_witness :
    resolveIdentity "instance" "from-label" "from-plugin"
      = .error (.conflict "instance" "from-label" "from-plugin") :=
  (identity_conflict_resolution.1 "instance" "from-label" "from-plugin").mpr (by decide)

/-! ### Claim C7 -/

/-- Counterexample to claim C7: an input the URL parser rejects (a
control byte in the path) makes the function return an error instead of
passing the input through, so the function is not total in the claimed
never-fails sense. -/
theorem unparseable_url_is_error :
    convertHTTPtoSSH ctlURL = .error .invalidControlCharacter
    ∧ convertHTTPtoSSH ctlURL ≠ .ok ctlURL := by
  decide

/-- Claim C7 as amended: an SSH-form input passes through, an input the
URL parser rejects produces that parse error (rather than passing
through), a parsed input with a scheme other than http or https passes
through unchanged, and a parsed http or https input is rewritten to the
SSH form. -/
theorem convert_http_to_ssh_behavior (s : String) :
    (strStarts s "git@" = true → convertHTTPtoSSH s = .ok s)
    ∧ (strStarts s "git@" = false → ∀ e, urlParse s = .error e →
        convertHTTPtoSSH s = .error e)
    ∧ (strStarts s "git@" = false → ∀ u, urlParse s = .ok u →
        u.scheme ≠ "https" → u.scheme ≠ "http" → convertHTTPtoSSH s = .ok s)
    ∧ (strStarts s "git@" = false → ∀ u, urlParse s = .ok u →
        (u.scheme = "https" ∨ u.scheme = "http") →
        convertHTTPtoSSH s = .ok ("git@" ++ u.host ++ ":" ++ trimLeadingSlash u.path)) := by
  refine ⟨?_, ?_, ?_, ?_⟩
  · intro h
    simp [convertHTTPtoSSH, h]
  · intro h e hp
    simp [convertHTTPtoSSH, h, hp]
  · intro h u hp h1 h2
    simp [convertHTTPtoSSH, h, hp, h1, h2]
  · intro h u hp hd
    rcases hd with hd | hd
    · simp [convertHTTPtoSSH, h, hp, hd]
    · simp [convertHTTPtoSSH, h, hp, hd]

/-- Witness for the amended claim C7: the scenario repository URL is
rewritten from https to the SSH form. -/
theorem convert_http_to_ssh_behavior_witness :
    convertHTTPtoSSH httpsURL
      = .ok ("git@" ++ (GoURL.mk "https" "git.example.com" "/org/repo").host ++ ":"
          ++ trimLeadingSlash (GoURL.mk "https" "git.example.com" "/org/repo").path) :=
  (convert_http_to_ssh_behavior httpsURL).2.2.2 (by decide)
    (GoURL.mk "https" "git.example.com" "/org/repo") (by decide) (Or.inl rfl)

/-! ### Claim C8 -/

/-- Claim C8: on success, repoURL equals the annotation when present
and non-empty else the spec field, and path equals the rawPath
annotation whenever the key exists (even empty) else the spec field
else the dot; when both repository sources are empty, resolution fails
with the error that names both sources. -/
theorem repo_path_fallback_priority (raw : rawApplication) :
    (∀ app, newApplicationFromRaw raw = .ok app →
        app.repoURL = specRepoExpected raw ∧ app.path = specPathExpected raw)
    ∧ ((mapGet raw.metadata.annotations "rawRepository").getD "" = "" →
        raw.spec.source.repoURL = "" →
        resolveRepoURL raw = .error .emptyRepoSources
        ∧ (∀ app, newApplicationFromRaw raw ≠ .ok app)
        ∧ ∃ x y z, renderResolveError .emptyRepoSources
            = x ++ "rawRepository" ++ y ++ "spec.source.repoURL" ++ z) := by
  constructor
  · intro app h
    obtain ⟨iv, ev, repo, hI, hE, hR, happ⟩ := newApp_ok_elim raw app h
    have hr := resolveRepoURL_ok_elim raw repo hR
    rw [happ]
    exact ⟨hr.1, resolvePath_eq_spec raw⟩
  · intro h1 h2
    refine ⟨resolveRepoURL_error_of_bothEmpty raw h1 h2, ?_, ?_⟩
    · intro app h
      obtain ⟨iv, ev, repo, hI, hE, hR, happ⟩ := newApp_ok_elim raw app h
      rw [resolveRepoURL_error_of_bothEmpty raw h1 h2] at hR
      exact Except.noConfusion hR
    · refine ⟨"both " ++ quoteChar, quoteChar ++ " annotation and " ++ quoteChar,
              quoteChar ++ " are empty", ?_⟩
      simp only [renderResolveError, String.append_assoc]

/-- Witness for claim C8 at the annotated fixture and at the document
with every repository source empty. -/
theorem repo_path_fallback_priority_witness :
    (appSetters.repoURL = specRepoExpected rawSetters
      ∧ appSetters.path = specPathExpected rawSetters)
    ∧ resolveRepoURL rawEmptyRepo = .error .emptyRepoSources :=
  ⟨(repo_path_fallback_priority rawSetters).1 appSetters (by decide),
   ((repo_path_fallback_priority rawEmptyRepo).2 (by decide) (by decide)).1⟩

/-! ### Claim C9 -/

/-- Claim C9: when parsing a multi-document stream succeeds, the result
pairs exactly the documents whose kind and API version match the
Application resource type, in input order, with their resolved
descriptors (non-matching documents are skipped); a document the
decoder rejects anywhere in the stream makes the entire call fail with
no partial results. -/
theorem parse_stream_matching_docs (docs : List YamlDoc) :
    (∀ apps, ParseApplications docs = .ok apps →
      List.Forall₂ (fun r a => newApplicationFromRaw r = .ok a) (matchingDocs docs) apps)
    ∧ (YamlDoc.malformed ∈ docs → ∀ apps, ParseApplications docs ≠ .ok apps) := by
  induction docs with
  | nil =>
    constructor
    · intro apps h
      have happs : ([] : List Application) = apps := (Except.ok.injEq _ _).mp h
      rw [← happs]
      exact List.Forall₂.nil
    · intro hmem
      simp at hmem
  | cons d docs ih =>
    cases d with
    | malformed =>
      constructor
      · intro apps h
        exact Except.noConfusion h
      · intro _ apps h
        exact Except.noConfusion h
    | doc raw =>
      by_cases hm : isApplicationDoc raw = true
      · cases hA : newApplicationFromRaw raw with
        | error e =>
          have hP : ParseApplications (.doc raw :: docs)
              = .error (.invalidApplication raw.metadata.name e) := by
            simp [ParseApplications, hm, hA]
          constructor
          · intro apps h
            rw [hP] at h
            exact Except.noConfusion h
          · intro _ apps h
            rw [hP] at h
            exact Except.noConfusion h
        | ok a =>
          cases hR : ParseApplications docs with
          | error e =>
            have hP : ParseApplications (.doc raw :: docs) = .error e := by
              simp [ParseApplications, hm, hA, hR]
            constructor
            · intro apps h
              rw [hP] at h
              exact Except.noConfusion h
            · intro _ apps h
              rw [hP] at h
              exact Except.noConfusion h
          | ok apps0 =>
            have hP : ParseApplications (.doc raw :: docs) = .ok (a :: apps0) := by
              simp [ParseApplications, hm, hA, hR]
            have hMD : matchingDocs (.doc raw :: docs) = raw :: matchingDocs docs := by
              simp [matchingDocs, hm]
            constructor
            · intro apps h
              rw [hP] at h
              have happ := (Except.ok.injEq _ _).mp h
              rw [hMD, ← happ]
              exact List.Forall₂.cons hA (ih.1 apps0 hR)
            · intro hmem apps h
              have hmem2 : YamlDoc.malformed ∈ docs := by
                rcases List.mem_cons.mp hmem with h1 | h1
                · exact YamlDoc.noConfusion h1
                · exact h1
              exact ih.2 hmem2 apps0 hR
      · have hmf : isApplicationDoc raw = false := by simpa using hm
        have hP : ParseApplications (.doc raw :: docs) = ParseApplications docs := by
          simp [ParseApplications, hmf]
        have hMD : matchingDocs (.doc raw :: docs) = matchingDocs docs := by
          simp [matchingDocs, hmf]
        constructor
        · intro apps h
          rw [hMD]
          exact ih.1 apps (by rw [← hP]; exact h)
        · intro hmem apps
          have hmem2 : YamlDoc.malformed ∈ docs := by
            rcases List.mem_cons.mp hmem with h1 | h1
            · exact YamlDoc.noConfusion h1
            · exact h1
          rw [hP]
          exact ih.2 hmem2 apps

/-- Witness for claim C9: the mixed stream pairs its single matching
document with its descriptor, and the stream with a rejected document
fails. -/
theorem parse_stream_matching_docs_witness :
    List.Forall₂ (fun r a => newApplicationFromRaw r = .ok a)
      (matchingDocs docsMixed) [appSetters]
    ∧ ParseApplications docsBad ≠ .ok [] :=
  ⟨(parse_stream_matching_docs docsMixed).1 [appSetters] (by decide),
   (parse_stream_matching_docs docsBad).2 (by decide) []⟩

/-! ### Claim C10 -/

/-- Claim C10: the document rawNoRev has an empty target revision and
still resolves successfully; the empty revision appears verbatim in the
cache key, which therefore ends in the at sign, and it is handed to the
version-control collaborator as the branch name (an empty branch
reference). -/
theorem empty_target_revision_flows :
    rawNoRev.spec.source.targetRevision = ""
    ∧ newApplicationFromRaw rawNoRev = .ok appNoRev
    ∧ appNoRev.targetRevision = ""
    ∧ workerCacheKey appNoRev = .ok (appNoRev.repoURL ++ "@")
    ∧ workerCloneRequest appNoRev = .ok { url := "git@example.com:org/repo", revision := "" }
    ∧ branchReferenceName "" = "refs/heads/" := by
  decide

end ArgoRenderer
